import Mathlib

/-!
Shallow embedding of the declaration-resolution and type-derivation core of
the analyzer (source: `declarationUtils.ts`, consumer: `hoverProvider.ts`).

Modelling conventions:
* TypeScript objects become Lean inductive values.  JavaScript reference
  equality (`===`) between declaration objects is modelled by an `objectId`
  field carried by every declaration, standing for the object's heap
  address; two declarations are the same object exactly when their
  `objectId`s coincide.
* `undefined`/optional fields become `Option`; JS string truthiness
  (`undefined` and `""` are falsy) is modelled explicitly where the source
  relies on it.
* Maps (`Map<string, _>`) become association lists preserving insertion
  order, with first-match lookup and update-or-append `set`.
* The unbounded `while (true)` loop of `resolveAliasDeclaration` (which
  genuinely diverges for adversarial `importLookup` functions) is modelled
  with an explicit fuel parameter; results additionally report the number
  of loop-body iterations executed, so that iteration-count properties can
  be stated.
* Collaborators whose code is not part of this repository snapshot
  (`symbol.ts`, `types.ts`, `typeUtils.ts`, scope lookup, the node→type
  side table) are modelled from the spec; each such definition carries a
  doc comment starting with `Modelled from the spec:`.
-/

namespace Analyzer

/-- Source position (common/diagnostic): line and column. -/
structure DiagnosticTextPosition where
  line : Nat
  column : Nat
deriving DecidableEq, Repr

/-- Source range (common/diagnostic): start and end positions. -/
structure DiagnosticTextRange where
  start : DiagnosticTextPosition
  stop : DiagnosticTextPosition
deriving DecidableEq, Repr

/-- Source `getEmptyRange` from common/diagnostic. -/
def getEmptyRange : DiagnosticTextRange :=
  { start := { line := 0, column := 0 }, stop := { line := 0, column := 0 } }

/-- The `DeclarationType` enum of the declaration module. -/
inductive DeclarationType where
  | BuiltIn
  | Class
  | Function
  | Method
  | Parameter
  | Variable
  | Alias
deriving DecidableEq, Repr

mutual

/-- Modelled from the spec: `ModuleLoaderActions` — an optional module path
plus a mapping from submodule name to nested `ModuleLoaderActions`. -/
inductive ModuleLoaderActions where
  | mk (path : Option String) (implicitImports : List MLAEntry)

/-- One entry of the `implicitImports` map of `ModuleLoaderActions`. -/
inductive MLAEntry where
  | mk (name : String) (actions : ModuleLoaderActions)

end

mutual

/-- Modelled from the spec: the `Type` tagged variant (`types.ts` is not in
this snapshot): Unknown, Class, Object{class}, Function,
OverloadedFunction{overloads}, Module{fields, loaderFields, docString},
plus the union form over which `doForSubtypes` iterates (§4.1). -/
inductive Ty where
  | unknown
  | classType (details : ClassType)
  | object (classType : ClassType)
  | functionType
  | overloadedFunction (overloads : List Ty)
  | module (fields : List SymbolTableEntry) (loaderFields : List SymbolTableEntry)
      (docString : Option String)
  | union (subtypes : List Ty)

/-- Modelled from the spec: a class type with its name, whether it is one of
the built-in classes (`ClassType.isBuiltIn`), whether it is a subtype of the
enumeration base (`TypeUtils.isEnumClass`), and its member symbol table
(consulted by `lookUpClassMember`). -/
inductive ClassType where
  | mk (name : String) (builtIn : Bool) (enumClass : Bool)
      (fields : List SymbolTableEntry)

/-- One entry of a symbol table (`Map<string, Symbol>`), in insertion order. -/
inductive SymbolTableEntry where
  | mk (name : String) (symbol : Symbol)

/-- Modelled from the spec: a `Symbol` owns an ordered sequence of
declarations for one name (`symbol.ts` is not in this snapshot); it exposes
all declarations and the typed subsequence, and may carry a synthesized type
when created by `Symbol.createWithType`. -/
inductive Symbol where
  | mk (flags : Nat) (synthesizedType : Option Ty) (declarations : List Declaration)

/-- A declaration record: `objectId` models the JavaScript object identity
of the declaration (see the module comment), the remaining fields are the
`DeclarationBase` data (`path`, `range`) and the kind-specific payload. -/
inductive Declaration where
  | mk (objectId : Nat) (path : Option String) (range : DiagnosticTextRange)
      (info : DeclarationInfo)

/-- Kind-specific payload of a declaration.  For Class/Function/Method the
payload is the node→type side-table entry of the defining name node
(`AnalyzerNodeInfo.getExpressionType(node.name)`); Parameter carries its
annotation node and the side-table entry of its name node; Variable carries
its own node and annotation node; Alias carries `symbolName`,
`submoduleFallback` and `implicitImports`. -/
inductive DeclarationInfo where
  | BuiltIn (declaredType : Ty)
  | Class (nameType : Option Ty)
  | Function (nameType : Option Ty)
  | Method (nameType : Option Ty)
  | Parameter (typeAnnot : Option AnnotationNode) (nameNode : Option ExprNode)
  | Variable (node : ExprNode) (typeAnnotNode : Option AnnotationNode) (isConstant : Bool)
  | Alias (symbolName : Option String) (submoduleFallback : Option Declaration)
      (implicitImports : List MLAEntry)

/-- Modelled from the spec: the slice of a parse-tree expression node that
this core consumes — its node→type side-table entry
(`AnalyzerNodeInfo.getExpressionType`) and the class type attached to its
innermost enclosing class node (`ParseTreeUtils.getEnclosingClass` composed
with the side table; the source asserts the attached type is class-shaped). -/
inductive ExprNode where
  | mk (exprType : Option Ty) (enclosingClass : Option ClassType)

/-- A type-annotation expression node: either a plain expression node or the
"string-literal forward reference" form (`ParseNodeType.StringList`), whose
inner annotation may be absent. -/
inductive AnnotationNode where
  | expr (node : ExprNode)
  | stringList (typeAnnot : Option ExprNode)

end

/-- Accessor: object identity of a declaration (models JS `===`). -/
def Declaration.objectId : Declaration → Nat
  | .mk i _ _ _ => i

/-- Accessor: the `path` field of `DeclarationBase` (for an alias this is
the target module path consulted by `importLookup`). -/
def Declaration.path : Declaration → Option String
  | .mk _ p _ _ => p

/-- Accessor: the source range of a declaration. -/
def Declaration.range : Declaration → DiagnosticTextRange
  | .mk _ _ r _ => r

/-- Accessor: the kind-specific payload of a declaration. -/
def Declaration.info : Declaration → DeclarationInfo
  | .mk _ _ _ i => i

/-- The `type` discriminant of a declaration. -/
def Declaration.type (d : Declaration) : DeclarationType :=
  match d.info with
  | .BuiltIn _ => .BuiltIn
  | .Class _ => .Class
  | .Function _ => .Function
  | .Method _ => .Method
  | .Parameter _ _ => .Parameter
  | .Variable _ _ _ => .Variable
  | .Alias _ _ _ => .Alias

/-- Accessor: the `symbolName` of an alias declaration (none otherwise). -/
def Declaration.aliasSymbolName (d : Declaration) : Option String :=
  match d.info with
  | .Alias symbolName _ _ => symbolName
  | _ => none

/-- Accessor: class-type name (`details.name` in the source). -/
def ClassType.name : ClassType → String
  | .mk n _ _ _ => n

/-- Source `ClassType.isBuiltIn`. -/
def ClassType.isBuiltIn : ClassType → Bool
  | .mk _ b _ _ => b

/-- Modelled from the spec: `TypeUtils.isEnumClass` — the class is a subtype
of the enumeration base. -/
def TypeUtilsIsEnumClass : ClassType → Bool
  | .mk _ _ e _ => e

/-- Accessor: the member symbol table of a class type. -/
def ClassType.fields : ClassType → List SymbolTableEntry
  | .mk _ _ _ f => f

/-- Accessor: the `exprType` side-table entry of an expression node. -/
def ExprNode.exprType : ExprNode → Option Ty
  | .mk t _ => t

/-- Accessor: the enclosing class of an expression node. -/
def ExprNode.enclosingClass : ExprNode → Option ClassType
  | .mk _ c => c

/-- Source `ObjectType.create`: the instance type of a class. -/
def ObjectType.create (classType : ClassType) : Ty := .object classType

/-- Source `UnknownType.create`. -/
def UnknownType.create : Ty := .unknown

/-- Symbol-table lookup (`Map.get`): first entry with the given name. -/
def SymbolTable.get : List SymbolTableEntry → String → Option Symbol
  | [], _ => none
  | .mk n s :: rest, name => if n == name then some s else SymbolTable.get rest name

/-- Symbol-table update (`Map.set`): replace the entry in place if the key
exists, otherwise append (JS `Map` insertion-order semantics). -/
def SymbolTable.set : List SymbolTableEntry → String → Symbol → List SymbolTableEntry
  | [], name, symbol => [.mk name symbol]
  | .mk n s :: rest, name, symbol =>
    if n == name then .mk name symbol :: rest
    else .mk n s :: SymbolTable.set rest name symbol

/-- Source `SymbolFlags.None`. -/
def SymbolFlags.None : Nat := 0

/-- Modelled from the spec: `Symbol.createWithType` wraps a type in a fresh
symbol with no declarations. -/
def Symbol.createWithType (flags : Nat) (type : Ty) : Symbol :=
  .mk flags (some type) []

/-- Accessor: all declarations of a symbol (`Symbol.getDeclarations`). -/
def Symbol.getDeclarations : Symbol → List Declaration
  | .mk _ _ ds => ds

/-- Source `hasTypeForDeclaration`: a cheap structural predicate — always
true for BuiltIn/Class/Function/Method, presence of the annotation node for
Parameter/Variable, false for Alias. -/
def hasTypeForDeclaration (declaration : Declaration) : Bool :=
  match declaration.info with
  | .BuiltIn _ => true
  | .Class _ => true
  | .Function _ => true
  | .Method _ => true
  | .Parameter typeAnnot _ => typeAnnot.isSome
  | .Variable _ typeAnnotNode _ => typeAnnotNode.isSome
  | .Alias _ _ _ => false

/-- Modelled from the spec: `Symbol.getTypedDeclarations` — the subsequence
of the declarations carrying an explicit/declared type. -/
def Symbol.getTypedDeclarations : Symbol → List Declaration
  | .mk _ _ ds => ds.filter (fun d => hasTypeForDeclaration d)

/-- The external `ImportLookup` capability's answer: the target module's
symbol table and docstring. -/
structure ImportLookupResult where
  symbolTable : List SymbolTableEntry
  docString : Option String

/-- The external `ImportLookup` capability: module path to lookup result. -/
abbrev ImportLookup := String → Option ImportLookupResult

/-- Source `areDeclarationsSame`: equal kind, equal path, and equal start
position. -/
def areDeclarationsSame (decl1 decl2 : Declaration) : Bool :=
  if decl1.type ≠ decl2.type then false
  else if decl1.path ≠ decl2.path then false
  else if decl1.range.start.line ≠ decl2.range.start.line ||
      decl1.range.start.column ≠ decl2.range.start.column then false
  else true

/-- Source `isFunctionOrMethodDeclaration`. -/
def isFunctionOrMethodDeclaration (declaration : Declaration) : Bool :=
  declaration.type == DeclarationType.Method || declaration.type == DeclarationType.Function

/-- Outcome of one body execution of the `while (true)` loop of
`resolveAliasDeclaration`: return `curDeclaration` as-is (`terminal`),
return `undefined` (`failed`), recurse into the submodule fallback
(`fallbackTo`), or assign a new `curDeclaration` and continue (`advance`). -/
inductive StepOutcome where
  | terminal (d : Declaration)
  | failed
  | fallbackTo (f : Declaration)
  | advance (d : Declaration)

/-- JS string truthiness of an optional string field: `undefined` and the
empty string are falsy. -/
def strTruthy : Option String → Bool
  | none => false
  | some s => !(s == "")

/-- The branch of the loop body taken when no symbol was obtained: recurse
into `submoduleFallback` if present, otherwise return `undefined`. -/
def symbolMissing : Option Declaration → StepOutcome
  | some fb => .fallbackTo fb
  | none => .failed

/-- One body execution of the `while (true)` loop of
`resolveAliasDeclaration` (source lines 130–170), up to but excluding the
cycle-guard check on the newly selected declaration.  JS string truthiness
of `curDeclaration.path` (`undefined` and `""` are falsy) is explicit. -/
def resolveStep (importLookup : ImportLookup) (curDeclaration : Declaration) : StepOutcome :=
  match curDeclaration.info with
  | .Alias symbolName submoduleFallback _ =>
    match symbolName with
    | none => .terminal curDeclaration
    | some symName =>
      -- JS truthiness: `if (!curDeclaration.symbolName) return curDeclaration`
      -- also returns here when symbolName is the empty string.
      if symName == "" then .terminal curDeclaration
      else
      match curDeclaration.path with
      | some p =>
        if p == "" then symbolMissing submoduleFallback
        else
          match importLookup p with
          | none => .failed
          | some lookupResult =>
            match SymbolTable.get lookupResult.symbolTable symName with
            | none => symbolMissing submoduleFallback
            | some symbol =>
              let declarations := Symbol.getTypedDeclarations symbol
              let declarations :=
                if declarations.length == 0 then Symbol.getDeclarations symbol
                else declarations
              match declarations.getLast? with
              | none => .failed
              | some d => .advance d
      | none => symbolMissing submoduleFallback
  | _ => .terminal curDeclaration

/-- Result of `resolveAliasDeclaration` under fuel: a declaration or
`undefined`, together with the number of loop-body iterations executed
(nested submodule-fallback calls included), or fuel exhaustion. -/
inductive ResolveResult where
  | found (d : Declaration) (iters : Nat)
  | absent (iters : Nat)
  | outOfFuel

/-- Add the current loop-body iteration to a nested result's count. -/
def ResolveResult.bump : ResolveResult → ResolveResult
  | .found d i => .found d (i + 1)
  | .absent i => .absent (i + 1)
  | .outOfFuel => .outOfFuel

/-- The loop of source `resolveAliasDeclaration`: `declaration` is the
original input (returned unchanged when the cycle guard fires),
`curDeclaration` the declaration currently being examined, `alreadyVisited`
the visited list.  The guard compares by object identity, modelling the
source's `alreadyVisited.find(decl => decl === curDeclaration)`. -/
def resolveAliasDeclarationAux (importLookup : ImportLookup) :
    Nat → Declaration → Declaration → List Declaration → ResolveResult
  | 0, _, _, _ => .outOfFuel
  | fuel + 1, declaration, curDeclaration, alreadyVisited =>
    match resolveStep importLookup curDeclaration with
    | .terminal d => .found d 1
    | .failed => .absent 1
    | .fallbackTo fb => (resolveAliasDeclarationAux importLookup fuel fb fb []).bump
    | .advance d =>
      if alreadyVisited.any (fun decl => decl.objectId == d.objectId) then
        .found declaration 1
      else
        (resolveAliasDeclarationAux importLookup fuel declaration d (alreadyVisited ++ [d])).bump

/-- Source `resolveAliasDeclaration` (with fuel): start the loop at the
input declaration with an empty visited list. -/
def resolveAliasDeclaration (fuel : Nat) (importLookup : ImportLookup)
    (declaration : Declaration) : ResolveResult :=
  resolveAliasDeclarationAux importLookup fuel declaration declaration []

/-- The chain of declarations through which `resolveAliasDeclaration`
advances, ignoring the cycle guard: `chase il d n` is the declaration
examined at the start of loop iteration `n + 1`, when iterations `1..n` all
took the `advance` branch (`none` once the chain stops advancing).  This is
the walk through the alias graph reachable from `d`. -/
def chase (importLookup : ImportLookup) (declaration : Declaration) : Nat → Option Declaration
  | 0 => some declaration
  | n + 1 =>
    match chase importLookup declaration n with
    | none => none
    | some c =>
      match resolveStep importLookup c with
      | .advance d => some d
      | _ => none

/-- Mutable `ModuleType` data while a module type is being built during
Module Materialization (fields, loader fields, docstring). -/
structure ModuleData where
  fields : List SymbolTableEntry
  loaderFields : List SymbolTableEntry
  docString : Option String

/-- Source `ModuleType.create`: a fresh empty module. -/
def ModuleType.create : ModuleData :=
  { fields := [], loaderFields := [], docString := none }

/-- The finished module type corresponding to builder data. -/
def ModuleData.toType (m : ModuleData) : Ty :=
  .module m.fields m.loaderFields m.docString

mutual

/-- Source `_applyLoaderActionsToModuleType`, ported functionally: the
in-place mutation of `moduleType` becomes threading of `ModuleData`.  If
`loaderActions.path` is truthy, perform the import lookup: on success
overwrite `fields`/`docString` from the result, on failure return Unknown
immediately; then process the implicit imports and return the module. -/
def applyLoaderActionsToModuleType (moduleType : ModuleData)
    (loaderActions : ModuleLoaderActions) (importLookup : ImportLookup) : Ty :=
  match loaderActions with
  | .mk path implicitImports =>
    let afterLookup : Option ModuleData :=
      match path with
      | some p =>
        if p == "" then some moduleType
        else
          match importLookup p with
          | some lookupResults =>
            some { moduleType with
                   fields := lookupResults.symbolTable,
                   docString := lookupResults.docString }
          | none => none
      | none => some moduleType
    match afterLookup with
    | none => UnknownType.create
    | some m =>
      Ty.module m.fields (applyLoaderActionsList m.loaderFields implicitImports importLookup)
        m.docString

/-- The `loaderActions.implicitImports.forEach` loop of
`_applyLoaderActionsToModuleType`: for each entry, build a fresh module,
recursively apply the nested loader actions, wrap the result in a symbol
and register it in the parent's loader-fields map. -/
def applyLoaderActionsList (loaderFields : List SymbolTableEntry)
    (implicitImports : List MLAEntry) (importLookup : ImportLookup) :
    List SymbolTableEntry :=
  match implicitImports with
  | [] => loaderFields
  | .mk name implicitImport :: rest =>
    let importedModuleType := ModuleType.create
    let symbolType := applyLoaderActionsToModuleType importedModuleType implicitImport importLookup
    let importedModuleSymbol := Symbol.createWithType SymbolFlags.None symbolType
    applyLoaderActionsList (SymbolTable.set loaderFields name importedModuleSymbol) rest importLookup

end

/-- Modelled from the spec: `TypeUtils.convertClassToObject` — annotations
denote instance types, so class types are converted to the corresponding
instance (object) types, through union constituents. -/
def convertClassToObject (type : Ty) : Ty :=
  match type with
  | .classType c => .object c
  | .union subtypes =>
    .union (subtypes.map fun t =>
      match t with
      | .classType c => .object c
      | other => other)
  | other => other

/-- The built-in base enumeration classes excluded from the enum transform. -/
def builtInEnumClasses : List String := ["Enum", "IntEnum", "Flag", "IntFlag"]

/-- Source `_getEnclosingEnumClass`: the innermost enclosing class of the
node, provided it is not one of the built-in base enumeration classes and
is a subtype of the enumeration base. -/
def getEnclosingEnumClass (node : ExprNode) : Option ClassType :=
  match node.enclosingClass with
  | none => none
  | some enumClass =>
    if ClassType.isBuiltIn enumClass &&
        builtInEnumClasses.any (fun c => c == ClassType.name enumClass) then none
    else if TypeUtilsIsEnumClass enumClass then some enumClass
    else none

/-- Source `transformTypeForPossibleEnumClass`: inside an enum class body,
the type of an assignment becomes an instance of the enum class itself. -/
def transformTypeForPossibleEnumClass (node : ExprNode) (typeOfExpr : Ty) : Ty :=
  match getEnclosingEnumClass node with
  | some enumClass => ObjectType.create enumClass
  | none => typeOfExpr

/-- The one-level "string-literal forward reference" unwrap shared by the
Parameter and Variable cases of `getTypeForDeclaration`: a `StringList`
annotation node is replaced by its inner annotation (possibly absent). -/
def unwrapStringList : Option AnnotationNode → Option ExprNode
  | some (.expr node) => some node
  | some (.stringList inner) => inner
  | none => none

/-- Source `getTypeForDeclaration`. -/
def getTypeForDeclaration (declaration : Declaration) : Option Ty :=
  match declaration.info with
  | .BuiltIn declaredType => some declaredType
  | .Class nameType => nameType
  | .Function nameType => nameType
  | .Method nameType => nameType
  | .Parameter typeAnnot _ =>
    match unwrapStringList typeAnnot with
    | some node =>
      match node.exprType with
      | some declaredType => some (convertClassToObject declaredType)
      | none => none
    | none => none
  | .Variable _ typeAnnotNode _ =>
    match unwrapStringList typeAnnotNode with
    | some node =>
      match node.exprType with
      | some declaredType =>
        some (convertClassToObject (transformTypeForPossibleEnumClass node declaredType))
      | none => none
    | none => none
  | .Alias _ _ _ => none

/-- Source `getInferredTypeOfDeclaration`, tail after the alias branch: use
the declared type if any, otherwise fall back to the inferred type attached
to the declaration's own node (Parameter: its name node; Variable: its
binding node). -/
def inferredTypeFallback (resolvedDecl : Declaration) : Option Ty :=
  match getTypeForDeclaration resolvedDecl with
  | some declaredType => some declaredType
  | none =>
    match resolvedDecl.info with
    | .Parameter _ nameNode =>
      match nameNode with
      | some n => n.exprType
      | none => none
    | .Variable node _ _ => node.exprType
    | _ => none

/-- Source `getInferredTypeOfDeclaration` (with fuel for the embedded alias
resolution): resolve aliases; if the resolved declaration still denotes a
module, materialize a module type through the loader actions (an
`AliasDeclaration` is used where `ModuleLoaderActions` is expected, by
structural typing in the source); otherwise derive the declared type, with
the inferred-type fallback. -/
def getInferredTypeOfDeclaration (fuel : Nat) (decl : Declaration)
    (importLookup : ImportLookup) : Option Ty :=
  match resolveAliasDeclaration fuel importLookup decl with
  | .outOfFuel => none
  | .absent _ => none
  | .found resolvedDecl _ =>
    match resolvedDecl.info with
    | .Alias symbolName submoduleFallback implicitImports =>
      let moduleType := ModuleType.create
      if strTruthy symbolName then
        match submoduleFallback with
        | some fb =>
          some (applyLoaderActionsToModuleType moduleType
            (.mk fb.path
              (match fb.info with
               | .Alias _ _ fbImplicitImports => fbImplicitImports
               | _ => []))
            importLookup)
        | none => inferredTypeFallback resolvedDecl
      else
        some (applyLoaderActionsToModuleType moduleType
          (.mk resolvedDecl.path implicitImports) importLookup)
    | _ => inferredTypeFallback resolvedDecl

/-- Modelled from the spec: the scope-chain lookup result (`SymbolWithScope`)
of `Scope.lookUpSymbolRecursive`, of which this core only reads `symbol`. -/
structure SymbolWithScope where
  symbol : Symbol

/-- Modelled from the spec: a lexical scope, consumed through its recursive
(outward-widening) lookup capability. -/
structure Scope where
  lookUpSymbolRecursive : String → Option SymbolWithScope

/-- Modelled from the spec: the import-resolution side table for a module
name node (`AnalyzerNodeInfo.getImportInfo`): resolved filesystem paths per
name-part index (an unresolved segment is the empty, falsy, string). -/
structure ImportInfo where
  resolvedPaths : List String

/-- The syntactic context of a name node, as far as
`getDeclarationsForNameNode` inspects it: the parent node's kind together
with the parent fields the source reads.  `nodeIsName` /
`nodeIsMemberName` model the reference-equality tests `node ===
node.parent.name` / `node === node.parent.memberName`;
`leftExpressionType` is the node→type side-table entry of the member
access's base expression; `namePartIndex` is the `findIndex` result over
the module name's parts (`none` for -1). -/
inductive NameNodeParent where
  | importFromAs (aliasName : Option String) (nodeIsName : Bool)
  | memberAccess (leftExpressionType : Option Ty) (nodeIsMemberName : Bool)
  | moduleName (namePartIndex : Option Nat) (importInfo : Option ImportInfo)
  | otherParent

/-- A name reference node: its token value, its parent context, and its
lexical scope (`getScopeForNode`). -/
structure NameNode where
  nameValue : String
  parent : Option NameNodeParent
  scope : Option Scope

/-- Modelled from the spec: `TypeUtils.lookUpClassMember` — look up a member
of a class; with `declaredTypesOnly` (flag `DeclaredTypesOnly`), only a
member with an explicit declared type is found. -/
def lookUpClassMember (classType : ClassType) (memberName : String)
    (_importLookup : ImportLookup) (declaredTypesOnly : Bool) : Option Symbol :=
  match SymbolTable.get (ClassType.fields classType) memberName with
  | none => none
  | some symbol =>
    if declaredTypesOnly then
      if (Symbol.getTypedDeclarations symbol).isEmpty then none else some symbol
    else some symbol

/-- Modelled from the spec: `TypeUtils.lookUpObjectMember` — the same
two-pass lookup through the instance member-resolution order, here the
object's class. -/
def lookUpObjectMember (objectClass : ClassType) (memberName : String)
    (importLookup : ImportLookup) (declaredTypesOnly : Bool) : Option Symbol :=
  lookUpClassMember objectClass memberName importLookup declaredTypesOnly

/-- Modelled from the spec: `ModuleType.getField` — direct field lookup by
name in a module's symbol table. -/
def ModuleType.getField (fields : List SymbolTableEntry) (memberName : String) :
    Option Symbol :=
  SymbolTable.get fields memberName

/-- Modelled from the spec: the constituent subtypes over which
`TypeUtils.doForSubtypes` iterates — the members of a union, or the type
itself. -/
def subtypesOf : Ty → List Ty
  | .union subtypes => subtypes
  | t => [t]

/-- The per-subtype body of the `doForSubtypes` callback in
`getDeclarationsForNameNode` (source lines 43–69): obtain the member's
symbol for one constituent subtype of the base type. -/
def symbolForSubtype (subtype : Ty) (memberName : String)
    (importLookup : ImportLookup) : Option Symbol :=
  match subtype with
  | .classType c =>
    match lookUpClassMember c memberName importLookup true with
    | some member => some member
    | none => lookUpClassMember c memberName importLookup false
  | .object c =>
    match lookUpObjectMember c memberName importLookup true with
    | some member => some member
    | none => lookUpObjectMember c memberName importLookup false
  | .module fields _ _ => ModuleType.getField fields memberName
  | _ => none

/-- The declarations pushed for one constituent subtype (source lines
71–78): the symbol's typed declarations when any exist, otherwise its full
declaration list; nothing when no symbol was found. -/
def declarationsForSubtype (subtype : Ty) (memberName : String)
    (importLookup : ImportLookup) : List Declaration :=
  match symbolForSubtype subtype memberName importLookup with
  | none => []
  | some symbol =>
    let typedDecls := Symbol.getTypedDeclarations symbol
    if typedDecls.length > 0 then typedDecls else Symbol.getDeclarations symbol

/-- The plain-identifier branch of `getDeclarationsForNameNode` (source
lines 100–110): scope-chain lookup; note that an absent scope yields the
empty list while an absent symbol yields `undefined`. -/
def plainNameLookup (node : NameNode) : Option (List Declaration) :=
  match node.scope with
  | none => some []
  | some scope =>
    match scope.lookUpSymbolRecursive node.nameValue with
    | none => none
    | some symbolInScope => some (Symbol.getDeclarations symbolInScope.symbol)

/-- Source `getDeclarationsForNameNode`.  The branch structure follows the
source: the `ImportFromAs` un-aliased name returns `undefined`; a member
access accumulates declarations across the base type's subtypes; a module
name part synthesizes an alias declaration from the resolved path; anything
else is a plain identifier.  A parent that fails its branch's inner test
falls through to the plain-identifier branch exactly as in the source's
`if/else if/else` chain. -/
def getDeclarationsForNameNode (node : NameNode) (importLookup : ImportLookup) :
    Option (List Declaration) :=
  match node.parent with
  | some (.importFromAs aliasName nodeIsName) =>
    if aliasName.isSome && nodeIsName then none
    else plainNameLookup node
  | some (.memberAccess leftExpressionType nodeIsMemberName) =>
    if nodeIsMemberName then
      match leftExpressionType with
      | some baseType =>
        some ((subtypesOf baseType).foldl
          (fun acc subtype => acc ++ declarationsForSubtype subtype node.nameValue importLookup)
          [])
      | none => some []
    else plainNameLookup node
  | some (.moduleName namePartIndex importInfo) =>
    match namePartIndex, importInfo with
    | some idx, some info =>
      if idx < info.resolvedPaths.length then
        if info.resolvedPaths.getD idx "" == "" then some []
        else
          some [Declaration.mk 0 (some (info.resolvedPaths.getD idx "")) getEmptyRange
            (.Alias none none [])]
      else some []
    | _, _ => some []
  | some .otherParent => plainNameLookup node
  | none => plainNameLookup node

/-! Concrete example inputs used by the witnesses and counterexamples. -/

/-- Alias declaration `exCycA`: points into module "cycA", symbol "x". -/
def exCycA : Declaration := .mk 10 (some "cycA") getEmptyRange (.Alias (some "x") none [])

/-- Alias declaration `exCycB`: points into module "cycB", symbol "x". -/
def exCycB : Declaration := .mk 11 (some "cycB") getEmptyRange (.Alias (some "x") none [])

/-- Import lookup realizing the two-cycle `exCycA → exCycB → exCycA`. -/
def exLookupCycle : ImportLookup := fun path =>
  if path == "cycA" then some ⟨[.mk "x" (.mk 0 none [exCycB])], none⟩
  else if path == "cycB" then some ⟨[.mk "x" (.mk 0 none [exCycA])], none⟩
  else none

/-- Alias declaration `exT0`: first element of a two-step tail leading to a
self-loop. -/
def exT0 : Declaration := .mk 20 (some "t0") getEmptyRange (.Alias (some "x") none [])

/-- Alias declaration `exT1`: second element of the tail. -/
def exT1 : Declaration := .mk 21 (some "t1") getEmptyRange (.Alias (some "x") none [])

/-- Alias declaration `exT2`: the declaration on the length-1 cycle. -/
def exT2 : Declaration := .mk 22 (some "t2") getEmptyRange (.Alias (some "x") none [])

/-- Import lookup realizing the chain `exT0 → exT1 → exT2 → exT2 → …`. -/
def exLookupTail : ImportLookup := fun path =>
  if path == "t0" then some ⟨[.mk "x" (.mk 0 none [exT1])], none⟩
  else if path == "t1" then some ⟨[.mk "x" (.mk 0 none [exT2])], none⟩
  else if path == "t2" then some ⟨[.mk "x" (.mk 0 none [exT2])], none⟩
  else none

/-- Range starting at line 5, column 0, shared by `exSameA`/`exSameB`. -/
def exRange5 : DiagnosticTextRange :=
  { start := { line := 5, column := 0 }, stop := { line := 5, column := 7 } }

/-- Start of the chain for the identity-guard counterexample. -/
def exStart : Declaration := .mk 30 (some "m0") getEmptyRange (.Alias (some "s0") none [])

/-- Alias `exSameA`: distinct object from `exSameB`, but same kind, path and
start position. -/
def exSameA : Declaration := .mk 31 (some "P") exRange5 (.Alias (some "s1") none [])

/-- Alias `exSameB`: `areDeclarationsSame exSameA exSameB` holds, yet it is
a different object (different `objectId`); it has no `symbolName`, so it is
terminal for alias resolution. -/
def exSameB : Declaration := .mk 32 (some "P") exRange5 (.Alias none none [])

/-- Import lookup realizing `exStart → exSameA → exSameB`. -/
def exLookupSame : ImportLookup := fun path =>
  if path == "m0" then some ⟨[.mk "s0" (.mk 0 none [exSameA])], none⟩
  else if path == "P" then some ⟨[.mk "s1" (.mk 0 none [exSameB])], none⟩
  else none

/-! Proof infrastructure for the alias-resolution loop. -/

/-- The result names declaration `d` within `bound` loop iterations. -/
def ResolveResult.isFoundWithin (res : ResolveResult) (d : Declaration) (bound : Nat) : Prop :=
  match res with
  | .found r i => r = d ∧ i ≤ bound
  | _ => False

/-- The result names declaration `d` (regardless of iteration count). -/
def ResolveResult.isFoundDecl (res : ResolveResult) (d : Declaration) : Prop :=
  match res with
  | .found r _ => r = d
  | _ => False

theorem aux_terminal {il : ImportLookup} {cur d : Declaration}
    (hstep : resolveStep il cur = .terminal d) (fuel : Nat) (orig : Declaration)
    (visited : List Declaration) :
    resolveAliasDeclarationAux il (fuel + 1) orig cur visited = .found d 1 := by
  simp [resolveAliasDeclarationAux, hstep]

theorem aux_failed {il : ImportLookup} {cur : Declaration}
    (hstep : resolveStep il cur = .failed) (fuel : Nat) (orig : Declaration)
    (visited : List Declaration) :
    resolveAliasDeclarationAux il (fuel + 1) orig cur visited = .absent 1 := by
  simp [resolveAliasDeclarationAux, hstep]

theorem aux_fallback {il : ImportLookup} {cur fb : Declaration}
    (hstep : resolveStep il cur = .fallbackTo fb) (fuel : Nat) (orig : Declaration)
    (visited : List Declaration) :
    resolveAliasDeclarationAux il (fuel + 1) orig cur visited =
      (resolveAliasDeclarationAux il fuel fb fb []).bump := by
  simp [resolveAliasDeclarationAux, hstep]

theorem aux_advance_visited {il : ImportLookup} {cur d : Declaration}
    (hstep : resolveStep il cur = .advance d) (fuel : Nat) (orig : Declaration)
    (visited : List Declaration)
    (hmem : visited.any (fun decl => decl.objectId == d.objectId) = true) :
    resolveAliasDeclarationAux il (fuel + 1) orig cur visited = .found orig 1 := by
  simp [resolveAliasDeclarationAux, hstep, hmem]

theorem aux_advance_notvisited {il : ImportLookup} {cur d : Declaration}
    (hstep : resolveStep il cur = .advance d) (fuel : Nat) (orig : Declaration)
    (visited : List Declaration)
    (hmem : visited.any (fun decl => decl.objectId == d.objectId) = false) :
    resolveAliasDeclarationAux il (fuel + 1) orig cur visited =
      (resolveAliasDeclarationAux il fuel orig d (visited ++ [d])).bump := by
  simp [resolveAliasDeclarationAux, hstep, hmem]

theorem chase_zero (il : ImportLookup) (d : Declaration) : chase il d 0 = some d := rfl

theorem chase_succ_elim {il : ImportLookup} {d : Declaration} {n : Nat} {c' : Declaration}
    (h : chase il d (n + 1) = some c') :
    ∃ c, chase il d n = some c ∧ resolveStep il c = .advance c' := by
  rw [chase] at h
  cases hc : chase il d n with
  | none => rw [hc] at h; simp at h
  | some c =>
    rw [hc] at h
    replace h : (match resolveStep il c with
        | StepOutcome.advance d2 => some d2
        | _ => none) = some c' := h
    cases hs : resolveStep il c with
    | advance d2 =>
      rw [hs] at h
      exact ⟨c, rfl, by rw [hs, Option.some_inj.mp h]⟩
    | terminal x => rw [hs] at h; simp at h
    | failed => rw [hs] at h; simp at h
    | fallbackTo f => rw [hs] at h; simp at h

theorem chase_isSome_add {il : ImportLookup} {d : Declaration} (m k : Nat)
    (h : (chase il d (m + k)).isSome) : (chase il d m).isSome := by
  induction k with
  | zero => exact h
  | succ k ih =>
    apply ih
    cases hc : chase il d (m + k) with
    | some c => rfl
    | none =>
      exfalso
      have hnone : chase il d (m + k + 1) = none := by rw [chase, hc]
      rw [show m + (k + 1) = m + k + 1 from rfl, hnone] at h
      simp at h

theorem chase_shift {il : ImportLookup} {d : Declaration} {i j : Nat} {x : Declaration}
    (hi : chase il d i = some x) (hj : chase il d j = some x) :
    chase il d (i + 1) = chase il d (j + 1) := by
  rw [chase, chase, hi, hj]

/-- The visited list built by iterations `1..r` of the loop: the
declarations selected so far, in selection order. -/
def selList (il : ImportLookup) (d : Declaration) (r : Nat) : List Declaration :=
  (List.range r).filterMap (fun i => chase il d (i + 1))

theorem selList_zero (il : ImportLookup) (d : Declaration) : selList il d 0 = [] := rfl

theorem selList_succ {il : ImportLookup} {d : Declaration} {r : Nat} {c : Declaration}
    (h : chase il d (r + 1) = some c) :
    selList il d (r + 1) = selList il d r ++ [c] := by
  unfold selList
  rw [List.range_succ, List.filterMap_append]
  simp [h]

theorem mem_selList {il : ImportLookup} {d : Declaration} {a r : Nat} {c : Declaration}
    (h1 : 1 ≤ a) (h2 : a ≤ r) (hc : chase il d a = some c) :
    c ∈ selList il d r := by
  unfold selList
  rw [List.mem_filterMap]
  refine ⟨a - 1, ?_, ?_⟩
  · rw [List.mem_range]; omega
  · rw [Nat.sub_add_cancel h1]; exact hc

/-- Core cycle lemma: if the chain from `d` selects the same object at
positions `a < b` (both at least 1), then from any intermediate state of the
run the loop returns the original declaration within the remaining number of
steps. -/
theorem guard_fires_aux (il : ImportLookup) (d : Declaration) (a b : Nat) (ca cb : Declaration)
    (ha1 : 1 ≤ a) (hab : a < b) (hca : chase il d a = some ca) (hcb : chase il d b = some cb)
    (hid : ca.objectId = cb.objectId) :
    ∀ s r fuel cr, r + s = b → 1 ≤ s → s ≤ fuel → chase il d r = some cr →
      ∃ m, m ≤ s ∧ resolveAliasDeclarationAux il fuel d cr (selList il d r) = .found d m := by
  intro s
  induction s with
  | zero => intro r fuel cr _ h1 _ _; omega
  | succ s ih =>
    intro r fuel cr hrb _ hsf hcr
    obtain ⟨fuel', rfl⟩ : ∃ f', fuel = f' + 1 := ⟨fuel - 1, by omega⟩
    have hr1b : r + 1 ≤ b := by omega
    have hdef : (chase il d (r + 1)).isSome := by
      apply chase_isSome_add (r + 1) (b - (r + 1))
      rw [Nat.add_sub_cancel' hr1b, hcb]
      rfl
    obtain ⟨c1, hc1⟩ := Option.isSome_iff_exists.mp hdef
    obtain ⟨c0, hc0, hstep⟩ := chase_succ_elim hc1
    rw [hcr] at hc0
    have hc0' : cr = c0 := Option.some_inj.mp hc0.symm |>.symm
    subst hc0'
    by_cases hmem : (selList il d r).any (fun decl => decl.objectId == c1.objectId) = true
    · exact ⟨1, by omega, aux_advance_visited hstep fuel' d _ hmem⟩
    · have hnot : (selList il d r).any (fun decl => decl.objectId == c1.objectId) = false :=
        Bool.eq_false_iff.mpr hmem
      cases s with
      | zero =>
        exfalso
        have hr1 : r + 1 = b := by omega
        have hc1b : c1 = cb := by
          rw [hr1] at hc1
          exact Option.some_inj.mp (hc1.symm.trans hcb)
        have hmemca : ca ∈ selList il d r := mem_selList ha1 (by omega) hca
        have : (selList il d r).any (fun decl => decl.objectId == c1.objectId) = true := by
          rw [List.any_eq_true]
          exact ⟨ca, hmemca, by rw [hc1b]; simp [hid]⟩
        rw [this] at hnot
        cases hnot
      | succ s' =>
        obtain ⟨m, hm, hres⟩ := ih (r + 1) fuel' c1 (by omega) (by omega) (by omega) hc1
        refine ⟨m + 1, by omega, ?_⟩
        rw [aux_advance_notvisited hstep fuel' d _ hnot, ← selList_succ hc1, hres]
        rfl

/-- Claim C1 (counterexample): for the input declaration `exT0` and the
lookup `exLookupTail`, the alias graph reachable from `exT0` contains a
cycle of length k = 1 (the chain reaches `exT2` after two steps and `exT2`
steps to itself), yet `resolveAliasDeclaration` performs 3 loop iterations,
which exceeds the claimed bound k + 1 = 2.  (It does terminate and return
the original declaration.) -/
theorem claim1_counterexample :
    chase exLookupTail exT0 2 = some exT2 ∧
    chase exLookupTail exT0 (2 + 1) = some exT2 ∧
    resolveAliasDeclaration 10 exLookupTail exT0 = .found exT0 3 ∧
    ¬ (3 ≤ 1 + 1) :=
  ⟨rfl, rfl, rfl, by decide⟩

/-- Claim C1 (amended): for every input declaration and import lookup, if
the chain of declarations through which `resolveAliasDeclaration` advances
returns to the same declaration after k ≥ 1 further steps from position t
(a cycle of length k at distance t from the input), then for every
sufficient fuel the resolution terminates, performs at most t + k + 1 loop
iterations (k + 1 when the input declaration lies on the cycle, t = 0), and
returns the original input declaration unchanged (not absent). -/
theorem claim1_cycle_terminates (il : ImportLookup) (d : Declaration) (t k : Nat)
    (c : Declaration) (hk : 1 ≤ k) (h1 : chase il d t = some c)
    (h2 : chase il d (t + k) = some c) (fuel : Nat) (hfuel : t + k + 1 ≤ fuel) :
    (resolveAliasDeclaration fuel il d).isFoundWithin d (t + k + 1) := by
  rcases Nat.eq_zero_or_pos t with ht | ht
  · subst ht
    have hdc : d = c := Option.some_inj.mp ((chase_zero il d).symm.trans h1)
    rw [← hdc] at h2
    rw [Nat.zero_add] at h2
    have h1def : (chase il d 1).isSome := by
      apply chase_isSome_add 1 (k - 1)
      rw [show 1 + (k - 1) = k by omega, h2]
      rfl
    obtain ⟨c1, hc1⟩ := Option.isSome_iff_exists.mp h1def
    have hk1 : chase il d (k + 1) = chase il d (0 + 1) := chase_shift h2 (chase_zero il d)
    rw [Nat.zero_add, hc1] at hk1
    obtain ⟨m, hm, hres⟩ := guard_fires_aux il d 1 (k + 1) c1 c1 (by omega) (by omega)
      hc1 hk1 rfl (k + 1) 0 fuel d (by omega) (by omega) (by omega) rfl
    rw [resolveAliasDeclaration]
    rw [selList_zero] at hres
    rw [hres]
    exact ⟨rfl, by omega⟩
  · obtain ⟨m, hm, hres⟩ := guard_fires_aux il d t (t + k) c c ht (by omega)
      h1 h2 rfl (t + k) 0 fuel d (by omega) (by omega) (by omega) rfl
    rw [resolveAliasDeclaration]
    rw [selList_zero] at hres
    rw [hres]
    exact ⟨rfl, by omega⟩

/-- Claim C1 (witness): the two-cycle `exCycA ⇄ exCycB` — the input lies on
a cycle of length 2, so resolution returns `exCycA` itself within 3
iterations. -/
theorem claim1_cycle_terminates_witness :
    (resolveAliasDeclaration 3 exLookupCycle exCycA).isFoundWithin exCycA (0 + 2 + 1) :=
  claim1_cycle_terminates exLookupCycle exCycA 0 2 exCycA (by decide) rfl rfl 3 (by decide)

/-- Claim C2 (counterexample): during the resolution starting at `exStart`,
the declarations `exSameA` (selected first) and `exSameB` (selected second)
satisfy `areDeclarationsSame` (equal kind, path and start position), yet the
guard does not fire on selecting `exSameB`: the loop continues and the
resolution returns `exSameB` — not the original `exStart` that a fired
guard would return. -/
theorem claim2_counterexample :
    chase exLookupSame exStart 1 = some exSameA ∧
    chase exLookupSame exStart 2 = some exSameB ∧
    areDeclarationsSame exSameA exSameB = true ∧
    resolveAliasDeclaration 10 exLookupSame exStart = .found exSameB 3 ∧
    exSameB ≠ exStart :=
  ⟨rfl, rfl, rfl, rfl, by
    intro h
    exact absurd (congrArg Declaration.objectId h) (by decide)⟩

/-- Claim C2 (amended): the visited-set cycle guard of
`resolveAliasDeclaration` is keyed by object identity (the source's
reference-equality test `decl === curDeclaration`, modelled by `objectId`),
not by `areDeclarationsSame`: when the loop selects declaration `d`, it
aborts and returns the original declaration exactly when some already
visited declaration is the same object as `d`; otherwise it continues
chasing `d`, regardless of any `areDeclarationsSame` relation between `d`
and the visited declarations. -/
theorem claim2_guard_object_identity (il : ImportLookup) (fuel : Nat)
    (orig cur d : Declaration) (visited : List Declaration)
    (hstep : resolveStep il cur = .advance d) :
    (visited.any (fun decl => decl.objectId == d.objectId) = true →
      resolveAliasDeclarationAux il (fuel + 1) orig cur visited = .found orig 1) ∧
    (visited.any (fun decl => decl.objectId == d.objectId) = false →
      resolveAliasDeclarationAux il (fuel + 1) orig cur visited =
        (resolveAliasDeclarationAux il fuel orig d (visited ++ [d])).bump) :=
  ⟨fun hmem => aux_advance_visited hstep fuel orig visited hmem,
   fun hmem => aux_advance_notvisited hstep fuel orig visited hmem⟩

/-- Claim C2 (witness): concrete instance of the guard characterization, at
the state in which `exSameB` is selected while the `areDeclarationsSame`equal
but object-distinct `exSameA` is in the visited list: the guard does not
fire and the loop continues. -/
theorem claim2_guard_object_identity_witness :
    resolveAliasDeclarationAux exLookupSame 9 exStart exSameA [exSameA] =
      (resolveAliasDeclarationAux exLookupSame 8 exStart exSameB [exSameA, exSameB]).bump :=
  (claim2_guard_object_identity exLookupSame 8 exStart exSameA exSameB [exSameA] rfl).2 rfl

/-- Typed (annotated) variable declaration `exVar1`. -/
def exVar1 : Declaration :=
  .mk 41 (some "file") getEmptyRange
    (.Variable (.mk none none) (some (.expr (.mk none none))) false)

/-- Typed (annotated) variable declaration `exVar2`. -/
def exVar2 : Declaration :=
  .mk 42 (some "file") getEmptyRange
    (.Variable (.mk none none) (some (.expr (.mk none none))) false)

/-- Typed (annotated) variable declaration `exVar3`. -/
def exVar3 : Declaration :=
  .mk 43 (some "file") getEmptyRange
    (.Variable (.mk none none) (some (.expr (.mk none none))) false)

/-- Untyped (unannotated) variable declaration `exUntyped`. -/
def exUntyped : Declaration :=
  .mk 45 (some "file") getEmptyRange (.Variable (.mk none none) none false)

/-- Alias into module "vmod", symbol "v" (three typed declarations). -/
def exAliasV : Declaration := .mk 40 (some "vmod") getEmptyRange (.Alias (some "v") none [])

/-- Lookup for `exAliasV`: symbol "v" has declarations `[exVar1, exVar2, exVar3]`. -/
def exLookupVars : ImportLookup := fun path =>
  if path == "vmod" then some ⟨[.mk "v" (.mk 0 none [exVar1, exVar2, exVar3])], none⟩
  else none

/-- Alias into module "mmod", symbol "m" (mixed typed and untyped). -/
def exAliasMix : Declaration := .mk 44 (some "mmod") getEmptyRange (.Alias (some "m") none [])

/-- Lookup for `exAliasMix`: symbol "m" has a typed declaration followed by
an untyped one, so the typed subset is `[exVar1]` while the full list ends
in `exUntyped`. -/
def exLookupMix : ImportLookup := fun path =>
  if path == "mmod" then some ⟨[.mk "m" (.mk 0 none [exVar1, exUntyped])], none⟩
  else none

theorem mem_of_getLast?_eq_some {α : Type} {l : List α} {a : α}
    (h : l.getLast? = some a) : a ∈ l := by
  obtain ⟨hne, heq⟩ := List.mem_getLast?_eq_getLast (show a ∈ l.getLast? from h)
  rw [heq]
  exact List.getLast_mem hne

theorem resolveStep_advance_typed {il : ImportLookup} {cur : Declaration}
    {symName : String} {fallback : Option Declaration} {ii : List MLAEntry}
    {p : String} {lookupResult : ImportLookupResult} {symbol : Symbol} {dl : Declaration}
    (hinfo : cur.info = .Alias (some symName) fallback ii)
    (hsn : (symName == "") = false)
    (hpath : cur.path = some p) (hp : (p == "") = false)
    (hlk : il p = some lookupResult)
    (hsym : SymbolTable.get lookupResult.symbolTable symName = some symbol)
    (hlast : (Symbol.getTypedDeclarations symbol).getLast? = some dl) :
    resolveStep il cur = .advance dl := by
  have hne : Symbol.getTypedDeclarations symbol ≠ [] := by
    intro hnil
    rw [hnil] at hlast
    simp at hlast
  have hlen : ((Symbol.getTypedDeclarations symbol).length == 0) = false := by
    simp [List.length_eq_zero, hne]
  simp [resolveStep, hinfo, hsn, hpath, hp, hlk, hsym, hlen, hlast]

theorem resolveStep_advance_inferred {il : ImportLookup} {cur : Declaration}
    {symName : String} {fallback : Option Declaration} {ii : List MLAEntry}
    {p : String} {lookupResult : ImportLookupResult} {symbol : Symbol} {dl : Declaration}
    (hinfo : cur.info = .Alias (some symName) fallback ii)
    (hsn : (symName == "") = false)
    (hpath : cur.path = some p) (hp : (p == "") = false)
    (hlk : il p = some lookupResult)
    (hsym : SymbolTable.get lookupResult.symbolTable symName = some symbol)
    (hts : Symbol.getTypedDeclarations symbol = [])
    (hlast : (Symbol.getDeclarations symbol).getLast? = some dl) :
    resolveStep il cur = .advance dl := by
  simp [resolveStep, hinfo, hsn, hpath, hp, hlk, hsym, hts, hlast]

theorem resolveStep_failed_empty {il : ImportLookup} {cur : Declaration}
    {symName : String} {fallback : Option Declaration} {ii : List MLAEntry}
    {p : String} {lookupResult : ImportLookupResult} {symbol : Symbol}
    (hinfo : cur.info = .Alias (some symName) fallback ii)
    (hsn : (symName == "") = false)
    (hpath : cur.path = some p) (hp : (p == "") = false)
    (hlk : il p = some lookupResult)
    (hsym : SymbolTable.get lookupResult.symbolTable symName = some symbol)
    (hts : Symbol.getTypedDeclarations symbol = [])
    (hds : Symbol.getDeclarations symbol = []) :
    resolveStep il cur = .failed := by
  simp [resolveStep, hinfo, hsn, hpath, hp, hlk, hsym, hts, hds]

/-- Claim C3: whenever a symbol consulted during alias resolution or during
member-access name resolution has a non-empty typed-declaration subset, the
operation selects only from that subset (alias resolution advances to a
member of `getTypedDeclarations`, member access contributes exactly
`getTypedDeclarations`); the full declaration list is used only when the
typed subset is empty; and when both lists are empty,
`resolveAliasDeclaration` returns absent. -/
theorem claim3_typed_preference (il : ImportLookup) (cur : Declaration)
    (symName : String) (fallback : Option Declaration) (ii : List MLAEntry)
    (p : String) (lookupResult : ImportLookupResult) (symbol : Symbol)
    (hinfo : cur.info = .Alias (some symName) fallback ii)
    (hsn : (symName == "") = false)
    (hpath : cur.path = some p) (hp : (p == "") = false)
    (hlk : il p = some lookupResult)
    (hsym : SymbolTable.get lookupResult.symbolTable symName = some symbol) :
    (∀ dl, (Symbol.getTypedDeclarations symbol).getLast? = some dl →
      resolveStep il cur = .advance dl ∧ dl ∈ Symbol.getTypedDeclarations symbol) ∧
    (Symbol.getTypedDeclarations symbol = [] →
      ∀ dl, (Symbol.getDeclarations symbol).getLast? = some dl →
        resolveStep il cur = .advance dl ∧ dl ∈ Symbol.getDeclarations symbol) ∧
    (Symbol.getTypedDeclarations symbol = [] → Symbol.getDeclarations symbol = [] →
      ∀ fuel orig visited,
        resolveAliasDeclarationAux il (fuel + 1) orig cur visited = .absent 1) ∧
    (∀ (subtype : Ty) (memberName : String) (il2 : ImportLookup) (sym2 : Symbol),
      symbolForSubtype subtype memberName il2 = some sym2 →
      (Symbol.getTypedDeclarations sym2 ≠ [] →
        declarationsForSubtype subtype memberName il2 = Symbol.getTypedDeclarations sym2) ∧
      (Symbol.getTypedDeclarations sym2 = [] →
        declarationsForSubtype subtype memberName il2 = Symbol.getDeclarations sym2)) := by
  refine ⟨?_, ?_, ?_, ?_⟩
  · intro dl hlast
    exact ⟨resolveStep_advance_typed hinfo hsn hpath hp hlk hsym hlast,
      mem_of_getLast?_eq_some hlast⟩
  · intro hts dl hlast
    exact ⟨resolveStep_advance_inferred hinfo hsn hpath hp hlk hsym hts hlast,
      mem_of_getLast?_eq_some hlast⟩
  · intro hts hds fuel orig visited
    exact aux_failed (resolveStep_failed_empty hinfo hsn hpath hp hlk hsym hts hds) fuel orig visited
  · intro subtype memberName il2 sym2 hsym2
    constructor
    · intro hne
      have hlen : 0 < (Symbol.getTypedDeclarations sym2).length := by
        cases hl : Symbol.getTypedDeclarations sym2 with
        | nil => exact absurd hl hne
        | cons a as => simp
      simp [declarationsForSubtype, hsym2, hlen]
    · intro hts
      simp [declarationsForSubtype, hsym2, hts]

/-- Claim C3 (witness): for `exAliasMix`, whose target symbol has a typed
declaration `exVar1` followed by an untyped `exUntyped`, the loop advances
to `exVar1` — the last of the typed subset — and `exVar1` belongs to the
typed subset. -/
theorem claim3_typed_preference_witness :
    resolveStep exLookupMix exAliasMix = .advance exVar1 ∧
    exVar1 ∈ Symbol.getTypedDeclarations (.mk 0 none [exVar1, exUntyped]) :=
  (claim3_typed_preference exLookupMix exAliasMix "m" none [] "mmod"
    ⟨[.mk "m" (.mk 0 none [exVar1, exUntyped])], none⟩ (.mk 0 none [exVar1, exUntyped])
    rfl rfl rfl rfl rfl rfl).1 exVar1 rfl

/-- Claim C4: when the declaration list chosen for the symbol found during
alias resolution is non-empty, `resolveAliasDeclaration` advances to its
last element — here stated for a typed list of shape `ds ++ [dLast]` (e.g.
`[d1, d2, d3]`): the loop advances to `dLast`, never an earlier element. -/
theorem claim4_last_declaration (il : ImportLookup) (cur : Declaration)
    (symName : String) (fallback : Option Declaration) (ii : List MLAEntry)
    (p : String) (lookupResult : ImportLookupResult) (symbol : Symbol)
    (ds : List Declaration) (dLast : Declaration)
    (hinfo : cur.info = .Alias (some symName) fallback ii)
    (hsn : (symName == "") = false)
    (hpath : cur.path = some p) (hp : (p == "") = false)
    (hlk : il p = some lookupResult)
    (hsym : SymbolTable.get lookupResult.symbolTable symName = some symbol)
    (htyped : Symbol.getTypedDeclarations symbol = ds ++ [dLast]) :
    resolveStep il cur = .advance dLast := by
  apply resolveStep_advance_typed hinfo hsn hpath hp hlk hsym
  rw [htyped, List.getLast?_concat]

/-- Claim C4 (witness): the symbol behind `exAliasV` has the three typed
declarations `[exVar1, exVar2, exVar3]`; the loop advances to `exVar3`. -/
theorem claim4_last_declaration_witness :
    resolveStep exLookupVars exAliasV = .advance exVar3 :=
  claim4_last_declaration exLookupVars exAliasV "v" none [] "vmod"
    ⟨[.mk "v" (.mk 0 none [exVar1, exVar2, exVar3])], none⟩
    (.mk 0 none [exVar1, exVar2, exVar3]) [exVar1, exVar2] exVar3
    rfl rfl rfl rfl rfl rfl rfl

/-- A declaration on which the loop of `resolveAliasDeclaration` returns
immediately: any non-alias declaration, or an alias whose `symbolName` is
falsy (absent or the empty string). -/
def isTerminalDecl (d : Declaration) : Bool :=
  match d.info with
  | .Alias symbolName _ _ =>
    match symbolName with
    | none => true
    | some s => s == ""
  | _ => true

theorem resolveStep_terminal_of_isTerminal {il : ImportLookup} {cur : Declaration}
    (h : isTerminalDecl cur = true) : resolveStep il cur = .terminal cur := by
  unfold isTerminalDecl at h
  cases hinfo : cur.info with
  | Alias symbolName fallback ii =>
    rw [hinfo] at h
    cases symbolName with
    | none => simp [resolveStep, hinfo]
    | some s =>
      replace h : (s == "") = true := h
      simp [resolveStep, hinfo, h]
  | BuiltIn t => simp [resolveStep, hinfo]
  | Class t => simp [resolveStep, hinfo]
  | Function t => simp [resolveStep, hinfo]
  | Method t => simp [resolveStep, hinfo]
  | Parameter a b => simp [resolveStep, hinfo]
  | Variable a b c => simp [resolveStep, hinfo]

theorem resolveStep_not_terminal_of_some {il : ImportLookup} {cur : Declaration}
    {s : String} {fb : Option Declaration} {ii : List MLAEntry}
    (hinfo : cur.info = .Alias (some s) fb ii) (hs : (s == "") = false)
    (d : Declaration) : resolveStep il cur ≠ .terminal d := by
  intro h
  simp only [resolveStep, hinfo, hs, Bool.false_eq_true, if_false] at h
  repeat' split at h
  all_goals try simp at h
  all_goals cases fb <;> simp [symbolMissing] at h

theorem isTerminal_false_elim {cur : Declaration} (ht : ¬ isTerminalDecl cur = true) :
    ∃ s fb ii, cur.info = .Alias (some s) fb ii ∧ (s == "") = false := by
  unfold isTerminalDecl at ht
  cases hinfo : cur.info with
  | Alias sn f i =>
    rw [hinfo] at ht
    cases sn with
    | none => simp at ht
    | some s =>
      replace ht : ¬ ((s == "") = true) := ht
      exact ⟨s, f, i, rfl, Bool.eq_false_iff.mpr ht⟩
  | BuiltIn t => rw [hinfo] at ht; simp at ht
  | Class t => rw [hinfo] at ht; simp at ht
  | Function t => rw [hinfo] at ht; simp at ht
  | Method t => rw [hinfo] at ht; simp at ht
  | Parameter a b => rw [hinfo] at ht; simp at ht
  | Variable a b c => rw [hinfo] at ht; simp at ht

theorem resolveStep_terminal_self {il : ImportLookup} {cur d : Declaration}
    (h : resolveStep il cur = .terminal d) : d = cur ∧ isTerminalDecl cur = true := by
  by_cases ht : isTerminalDecl cur = true
  · rw [@resolveStep_terminal_of_isTerminal il cur ht] at h
    injection h with h1
    exact ⟨h1.symm, ht⟩
  · exfalso
    obtain ⟨s, fb, ii, hinfo, hs⟩ := isTerminal_false_elim ht
    exact resolveStep_not_terminal_of_some hinfo hs d h

theorem isTerminal_of_not_alias {d : Declaration}
    (h : d.type ≠ DeclarationType.Alias) : isTerminalDecl d = true := by
  unfold Declaration.type at h
  unfold isTerminalDecl
  cases hinfo : d.info with
  | Alias s f i => exfalso; apply h; rw [hinfo]
  | BuiltIn t => rfl
  | Class t => rfl
  | Function t => rfl
  | Method t => rfl
  | Parameter a b => rfl
  | Variable a b c => rfl

theorem isTerminal_of_symbolName_none {d : Declaration}
    (h : d.aliasSymbolName = none) : isTerminalDecl d = true := by
  unfold Declaration.aliasSymbolName at h
  unfold isTerminalDecl
  cases hinfo : d.info with
  | Alias s f i =>
    rw [hinfo] at h
    replace h : s = none := h
    subst h
    rfl
  | BuiltIn t => rfl
  | Class t => rfl
  | Function t => rfl
  | Method t => rfl
  | Parameter a b => rfl
  | Variable a b c => rfl

theorem aux_fuel_pos {il : ImportLookup} {fuel : Nat} {orig cur r : Declaration}
    {visited : List Declaration} {i : Nat}
    (h : resolveAliasDeclarationAux il fuel orig cur visited = .found r i) :
    1 ≤ fuel := by
  cases fuel with
  | zero => simp [resolveAliasDeclarationAux] at h
  | succ f => omega

theorem aux_mono (il : ImportLookup) :
    ∀ fuel fuel' (orig cur : Declaration) (visited : List Declaration), fuel ≤ fuel' →
      resolveAliasDeclarationAux il fuel orig cur visited ≠ .outOfFuel →
      resolveAliasDeclarationAux il fuel' orig cur visited =
        resolveAliasDeclarationAux il fuel orig cur visited := by
  intro fuel
  induction fuel with
  | zero => intro fuel' orig cur visited _ hne; exact absurd rfl hne
  | succ fuel ih =>
    intro fuel' orig cur visited hle hne
    obtain ⟨f', rfl⟩ : ∃ f', fuel' = f' + 1 := ⟨fuel' - 1, by omega⟩
    cases hs : resolveStep il cur with
    | terminal d => rw [aux_terminal hs, aux_terminal hs]
    | failed => rw [aux_failed hs, aux_failed hs]
    | fallbackTo fb =>
      rw [aux_fallback hs] at hne ⊢
      rw [aux_fallback hs]
      have hinner : resolveAliasDeclarationAux il fuel fb fb [] ≠ .outOfFuel := by
        intro hcontra
        rw [hcontra] at hne
        exact hne rfl
      rw [ih f' fb fb [] (by omega) hinner]
    | advance d =>
      by_cases hmem : visited.any (fun decl => decl.objectId == d.objectId) = true
      · rw [aux_advance_visited hs _ _ _ hmem, aux_advance_visited hs _ _ _ hmem]
      · have hm := Bool.eq_false_iff.mpr hmem
        rw [aux_advance_notvisited hs _ _ _ hm] at hne ⊢
        rw [aux_advance_notvisited hs _ _ _ hm]
        have hinner : resolveAliasDeclarationAux il fuel orig d (visited ++ [d]) ≠ .outOfFuel := by
          intro hcontra
          rw [hcontra] at hne
          exact hne rfl
        rw [ih f' orig d (visited ++ [d]) (by omega) hinner]

/-- Every declaration returned by the loop is terminal, or is the original
declaration of that loop invocation, or (through a submodule fallback) is
itself a fixed point of a smaller resolution. -/
theorem aux_found_cases (il : ImportLookup) :
    ∀ fuel (orig cur : Declaration) (visited : List Declaration) (r : Declaration) (i : Nat),
      resolveAliasDeclarationAux il fuel orig cur visited = .found r i →
      isTerminalDecl r = true ∨ r = orig ∨
        ∃ fuel0 i0, fuel0 ≤ fuel ∧
          resolveAliasDeclarationAux il fuel0 r r [] = .found r i0 := by
  intro fuel
  induction fuel with
  | zero => intro orig cur visited r i h; simp [resolveAliasDeclarationAux] at h
  | succ fuel ih =>
    intro orig cur visited r i h
    cases hs : resolveStep il cur with
    | terminal d =>
      rw [aux_terminal hs] at h
      injection h with h1 h2
      obtain ⟨hdc, hterm⟩ := resolveStep_terminal_self hs
      left
      rw [← h1, hdc]
      exact hterm
    | failed => rw [aux_failed hs] at h; injection h
    | fallbackTo fb =>
      rw [aux_fallback hs] at h
      cases hin : resolveAliasDeclarationAux il fuel fb fb [] with
      | found r' i' =>
        rw [hin] at h
        replace h : ResolveResult.found r' (i' + 1) = ResolveResult.found r i := h
        injection h with h1 h2
        subst h1
        rcases ih fb fb [] r' i' hin with ht | heq | ⟨fuel0, i0, hle, hres⟩
        · left; exact ht
        · right; right
          exact ⟨fuel, i', by omega, heq ▸ hin⟩
        · right; right
          exact ⟨fuel0, i0, by omega, hres⟩
      | absent i' => rw [hin] at h; injection h
      | outOfFuel => rw [hin] at h; injection h
    | advance d =>
      by_cases hmem : visited.any (fun decl => decl.objectId == d.objectId) = true
      · rw [aux_advance_visited hs _ _ _ hmem] at h
        injection h with h1 h2
        right; left
        exact h1.symm
      · have hm := Bool.eq_false_iff.mpr hmem
        rw [aux_advance_notvisited hs _ _ _ hm] at h
        cases hin : resolveAliasDeclarationAux il fuel orig d (visited ++ [d]) with
        | found r' i' =>
          rw [hin] at h
          replace h : ResolveResult.found r' (i' + 1) = ResolveResult.found r i := h
          injection h with h1 h2
          subst h1
          rcases ih orig d (visited ++ [d]) r' i' hin with ht | heq | ⟨fuel0, i0, hle, hres⟩
          · left; exact ht
          · right; left; exact heq
          · right; right
            exact ⟨fuel0, i0, by omega, hres⟩
        | absent i' => rw [hin] at h; injection h
        | outOfFuel => rw [hin] at h; injection h

/-- Claim C10: a non-alias declaration, or an alias without `symbolName`,
is returned unchanged by `resolveAliasDeclaration` in a single iteration,
independently of the import lookup (the loop never consults it); and
applying `resolveAliasDeclaration` a second time to any declaration it
returns yields that declaration again (idempotence on its image — this in
fact includes the cycle-fallback case, whose result is the input itself). -/
theorem claim10_resolve_idempotent :
    (∀ (il il' : ImportLookup) (d : Declaration) (fuel : Nat), 1 ≤ fuel →
      d.type ≠ DeclarationType.Alias →
      resolveAliasDeclaration fuel il d = .found d 1 ∧
      resolveAliasDeclaration fuel il d = resolveAliasDeclaration fuel il' d) ∧
    (∀ (il : ImportLookup) (d : Declaration) (fuel : Nat), 1 ≤ fuel →
      d.aliasSymbolName = none →
      resolveAliasDeclaration fuel il d = .found d 1) ∧
    (∀ (il : ImportLookup) (d r : Declaration) (i fuel : Nat),
      resolveAliasDeclaration fuel il d = .found r i →
      (resolveAliasDeclaration fuel il r).isFoundDecl r) := by
  have terminalCase : ∀ (il : ImportLookup) (d : Declaration) (fuel : Nat), 1 ≤ fuel →
      isTerminalDecl d = true → resolveAliasDeclaration fuel il d = .found d 1 := by
    intro il d fuel hfuel ht
    obtain ⟨f', rfl⟩ : ∃ f', fuel = f' + 1 := ⟨fuel - 1, by omega⟩
    exact aux_terminal (resolveStep_terminal_of_isTerminal ht) f' d []
  refine ⟨?_, ?_, ?_⟩
  · intro il il' d fuel hfuel hna
    have ht := isTerminal_of_not_alias hna
    rw [terminalCase il d fuel hfuel ht, terminalCase il' d fuel hfuel ht]
    exact ⟨rfl, rfl⟩
  · intro il d fuel hfuel hnone
    exact terminalCase il d fuel hfuel (isTerminal_of_symbolName_none hnone)
  · intro il d r i fuel h
    have hfuel : 1 ≤ fuel := aux_fuel_pos h
    rcases aux_found_cases il fuel d d [] r i h with ht | heq | ⟨fuel0, i0, hle, hres⟩
    · rw [terminalCase il r fuel hfuel ht]
      exact rfl
    · subst heq
      rw [h]
      exact rfl
    · have hne : resolveAliasDeclarationAux il fuel0 r r [] ≠ .outOfFuel := by
        rw [hres]
        intro hcontra
        injection hcontra
      have hmain : resolveAliasDeclaration fuel il r = .found r i0 :=
        (aux_mono il fuel0 fuel r r [] hle hne).trans hres
      rw [hmain]
      exact rfl

/-- Claim C10 (witness): the variable declaration `exVar1` resolves to
itself in one iteration under two different lookups, and re-resolving the
result of the cycle run from `exCycA` (which returns `exCycA` itself via
the cycle guard) again yields `exCycA`. -/
theorem claim10_resolve_idempotent_witness :
    (resolveAliasDeclaration 1 exLookupCycle exVar1 = .found exVar1 1 ∧
      resolveAliasDeclaration 1 exLookupCycle exVar1 =
        resolveAliasDeclaration 1 exLookupTail exVar1) ∧
    (resolveAliasDeclaration 4 exLookupCycle exCycA).isFoundDecl exCycA :=
  ⟨claim10_resolve_idempotent.1 exLookupCycle exLookupTail exVar1 1 (by decide) (by decide),
   claim10_resolve_idempotent.2.2 exLookupCycle exCycA exCycA 3 4 rfl⟩

/-- Symbol table exported by module "pkg/__init__". -/
def exPkgSymbols : List SymbolTableEntry := [.mk "VALUE" (.mk 0 none [exVar1])]

/-- Symbol table exported by module "pkg/sub". -/
def exSubSymbols : List SymbolTableEntry := [.mk "helper" (.mk 0 none [exVar2])]

/-- Lookup result for "pkg/__init__". -/
def exPkgInitResult : ImportLookupResult := ⟨exPkgSymbols, some "package doc"⟩

/-- Lookup result for "pkg/sub". -/
def exSubResult : ImportLookupResult := ⟨exSubSymbols, some "sub doc"⟩

/-- Import lookup knowing "pkg/__init__" and "pkg/sub". -/
def exLookupPkg : ImportLookup := fun path =>
  if path == "pkg/__init__" then some exPkgInitResult
  else if path == "pkg/sub" then some exSubResult
  else none

/-- Module alias with `path = "pkg/__init__"`, no `symbolName`, and one
implicit import `"sub" -> {path: "pkg/sub"}`. -/
def exPkgAlias : Declaration :=
  .mk 50 (some "pkg/__init__") getEmptyRange
    (.Alias none none [.mk "sub" (.mk (some "pkg/sub") [])])

/-- Claim C5: an alias that (after alias resolution) still denotes a module
— no `symbolName`, module path `p`, one implicit import `n ↦ {path: q}` —
materializes to a Module type whose `fields` and docstring are the import
lookup's answer for `p`, and whose separate loader-fields map binds `n` to
a Symbol wrapping the recursively built Module type for `q`, kept distinct
from `fields`. -/
theorem claim5_module_materialization (fuel : Nat) (hf : 1 ≤ fuel) (d : Declaration)
    (p q n : String) (hp : (p == "") = false) (hq : (q == "") = false)
    (r1 r2 : ImportLookupResult) (il : ImportLookup)
    (hinfo : d.info = .Alias none none [.mk n (.mk (some q) [])])
    (hpath : d.path = some p)
    (h1 : il p = some r1) (h2 : il q = some r2) :
    getInferredTypeOfDeclaration fuel d il =
      some (Ty.module r1.symbolTable
        [.mk n (Symbol.createWithType SymbolFlags.None
          (Ty.module r2.symbolTable [] r2.docString))]
        r1.docString) := by
  obtain ⟨f', rfl⟩ : ∃ f', fuel = f' + 1 := ⟨fuel - 1, by omega⟩
  have hterm : isTerminalDecl d = true := by
    unfold isTerminalDecl
    rw [hinfo]
  have hres : resolveAliasDeclaration (f' + 1) il d = .found d 1 :=
    aux_terminal (resolveStep_terminal_of_isTerminal hterm) f' d []
  unfold getInferredTypeOfDeclaration
  rw [hres]
  simp only [hinfo, hpath]
  simp [strTruthy, applyLoaderActionsToModuleType, applyLoaderActionsList, hp, hq, h1, h2,
    ModuleType.create, SymbolTable.set, Symbol.createWithType, SymbolFlags.None]

/-- Claim C5 (witness): the spec's scenario — `path = "pkg/__init__"`, one
implicit import `"sub" -> {path: "pkg/sub"}`. -/
theorem claim5_module_materialization_witness :
    getInferredTypeOfDeclaration 1 exPkgAlias exLookupPkg =
      some (Ty.module exPkgInitResult.symbolTable
        [.mk "sub" (Symbol.createWithType SymbolFlags.None
          (Ty.module exSubResult.symbolTable [] exSubResult.docString))]
        exPkgInitResult.docString) :=
  claim5_module_materialization 1 (by decide) exPkgAlias "pkg/__init__" "pkg/sub" "sub"
    rfl rfl exPkgInitResult exSubResult exLookupPkg rfl rfl rfl rfl

/-- Claim C6: during loader-action application with a truthy module path,
a failed import lookup makes the entire module type being built degrade to
Unknown (no fields, docstring or loader fields of that subtree are
populated); a successful lookup populates the module's `fields` and
docstring from the lookup result (loader fields then accumulate from the
implicit imports). -/
theorem claim6_loader_failure_unknown (m : ModuleData) (p : String)
    (hp : (p == "") = false) (ii : List MLAEntry) (il : ImportLookup) :
    (il p = none →
      applyLoaderActionsToModuleType m (.mk (some p) ii) il = UnknownType.create) ∧
    (∀ res : ImportLookupResult, il p = some res →
      applyLoaderActionsToModuleType m (.mk (some p) ii) il =
        Ty.module res.symbolTable (applyLoaderActionsList m.loaderFields ii il)
          res.docString) := by
  constructor
  · intro hlk
    simp [applyLoaderActionsToModuleType, hp, hlk, UnknownType.create]
  · intro res hlk
    simp [applyLoaderActionsToModuleType, hp, hlk]

/-- Claim C6 (witness): a failing lookup ("nope" is unknown to
`exLookupPkg`) yields Unknown; the successful lookup of "pkg/__init__"
yields a module with that result's symbol table and docstring. -/
theorem claim6_loader_failure_unknown_witness :
    applyLoaderActionsToModuleType ModuleType.create (.mk (some "nope") []) exLookupPkg =
      UnknownType.create ∧
    applyLoaderActionsToModuleType ModuleType.create (.mk (some "pkg/__init__") [])
        exLookupPkg =
      Ty.module exPkgInitResult.symbolTable
        (applyLoaderActionsList (ModuleType.create).loaderFields [] exLookupPkg)
        exPkgInitResult.docString :=
  ⟨(claim6_loader_failure_unknown ModuleType.create "nope" rfl [] exLookupPkg).1 rfl,
   (claim6_loader_failure_unknown ModuleType.create "pkg/__init__" rfl [] exLookupPkg).2
     exPkgInitResult rfl⟩

/-- Claim C7: a Variable declaration with a type-annotation node whose
innermost enclosing class is a (non-built-in-base) subtype of the
enumeration base gets, from `getTypeForDeclaration`, the instance type of
that enclosing class instead of the annotation's own type; with no
enclosing class, a non-enum enclosing class, or one of the built-in base
enumeration classes (Enum, IntEnum, Flag, IntFlag), the result is the
annotation's attached type, class-to-instance converted, unchanged by the
enum transform. -/
theorem claim7_enum_transform (d : Declaration) (base ann : ExprNode) (t : Ty)
    (isC : Bool) (hinfo : d.info = .Variable base (some (.expr ann)) isC)
    (ht : ann.exprType = some t) :
    (∀ c : ClassType, ann.enclosingClass = some c →
      TypeUtilsIsEnumClass c = true →
      (ClassType.isBuiltIn c && builtInEnumClasses.any (fun s => s == ClassType.name c))
        = false →
      getTypeForDeclaration d = some (ObjectType.create c)) ∧
    (ann.enclosingClass = none →
      getTypeForDeclaration d = some (convertClassToObject t)) ∧
    (∀ c : ClassType, ann.enclosingClass = some c →
      TypeUtilsIsEnumClass c = false →
      (ClassType.isBuiltIn c && builtInEnumClasses.any (fun s => s == ClassType.name c))
        = false →
      getTypeForDeclaration d = some (convertClassToObject t)) ∧
    (∀ c : ClassType, ann.enclosingClass = some c →
      (ClassType.isBuiltIn c && builtInEnumClasses.any (fun s => s == ClassType.name c))
        = true →
      getTypeForDeclaration d = some (convertClassToObject t)) := by
  refine ⟨?_, ?_, ?_, ?_⟩
  · intro c hc he hb
    simp [getTypeForDeclaration, hinfo, unwrapStringList, ht,
      transformTypeForPossibleEnumClass, getEnclosingEnumClass, hc, he, hb,
      convertClassToObject, ObjectType.create]
  · intro hc
    simp [getTypeForDeclaration, hinfo, unwrapStringList, ht,
      transformTypeForPossibleEnumClass, getEnclosingEnumClass, hc]
  · intro c hc he hb
    simp [getTypeForDeclaration, hinfo, unwrapStringList, ht,
      transformTypeForPossibleEnumClass, getEnclosingEnumClass, hc, he, hb]
  · intro c hc hb
    simp [getTypeForDeclaration, hinfo, unwrapStringList, ht,
      transformTypeForPossibleEnumClass, getEnclosingEnumClass, hc, hb]

/-- The built-in `int` class type. -/
def exIntClass : ClassType := .mk "int" true false []

/-- A user enum class `Color` (subtype of the enumeration base). -/
def exEnumColor : ClassType := .mk "Color" false true []

/-- A plain (non-enum) user class. -/
def exPlainClass : ClassType := .mk "Plain" false false []

/-- The built-in base class `Enum` itself. -/
def exEnumBase : ClassType := .mk "Enum" true true []

/-- Annotation node attached type `int`, enclosed by the enum class. -/
def exAnnEnum : ExprNode := .mk (some (.classType exIntClass)) (some exEnumColor)

/-- Annotation node attached type `int`, enclosed by a plain class. -/
def exAnnPlain : ExprNode := .mk (some (.classType exIntClass)) (some exPlainClass)

/-- Annotation node attached type `int`, enclosed by the `Enum` base. -/
def exAnnBase : ExprNode := .mk (some (.classType exIntClass)) (some exEnumBase)

/-- Declaration "RED: int" in the enum class body. -/
def exRedEnum : Declaration :=
  .mk 60 (some "file") getEmptyRange (.Variable (.mk none none) (some (.expr exAnnEnum)) false)

/-- Declaration "RED: int" in a plain class body. -/
def exRedPlain : Declaration :=
  .mk 61 (some "file") getEmptyRange (.Variable (.mk none none) (some (.expr exAnnPlain)) false)

/-- Declaration "RED: int" in the body of the Enum base class itself. -/
def exRedBase : Declaration :=
  .mk 62 (some "file") getEmptyRange (.Variable (.mk none none) (some (.expr exAnnBase)) false)

/-- Claim C7 (witness): `RED: int` inside the enum class `Color` has type
`Color` instance; inside a plain class and inside `Enum` itself it has the
annotation's own instance type `int`. -/
theorem claim7_enum_transform_witness :
    getTypeForDeclaration exRedEnum = some (ObjectType.create exEnumColor) ∧
    getTypeForDeclaration exRedPlain =
      some (convertClassToObject (.classType exIntClass)) ∧
    getTypeForDeclaration exRedBase =
      some (convertClassToObject (.classType exIntClass)) :=
  ⟨(claim7_enum_transform exRedEnum (.mk none none) exAnnEnum (.classType exIntClass)
      false rfl rfl).1 exEnumColor rfl rfl rfl,
   (claim7_enum_transform exRedPlain (.mk none none) exAnnPlain (.classType exIntClass)
      false rfl rfl).2.2.1 exPlainClass rfl rfl rfl,
   (claim7_enum_transform exRedBase (.mk none none) exAnnBase (.classType exIntClass)
      false rfl rfl).2.2.2 exEnumBase rfl rfl⟩

theorem foldl_append_eq_flatMap {α β : Type} (f : α → List β) :
    ∀ (l : List α) (acc : List β),
      l.foldl (fun a x => a ++ f x) acc = acc ++ l.flatMap f
  | [], acc => by simp
  | x :: xs, acc => by
    simp only [List.foldl_cons, List.flatMap_cons]
    rw [foldl_append_eq_flatMap f xs, List.append_assoc]

/-- Claim C8: for a name that is the member of a member access whose base
has a union type, name resolution returns the concatenation, in the union's
variant order, of the declarations found per variant (`declarationsForSubtype`
is the typed subset when non-empty, else the full list — see its
definition), and a variant yielding no symbol contributes nothing. -/
theorem claim8_union_member_access (node : NameNode) (il : ImportLookup) (ts : List Ty)
    (hparent : node.parent = some (.memberAccess (some (.union ts)) true)) :
    getDeclarationsForNameNode node il =
      some (ts.flatMap (fun subtype => declarationsForSubtype subtype node.nameValue il)) ∧
    (∀ subtype : Ty, symbolForSubtype subtype node.nameValue il = none →
      declarationsForSubtype subtype node.nameValue il = []) := by
  constructor
  · unfold getDeclarationsForNameNode
    rw [hparent]
    simp only [if_true, subtypesOf]
    rw [foldl_append_eq_flatMap]
    simp
  · intro subtype hnone
    simp [declarationsForSubtype, hnone]

/-- Class `C1`, whose member `attr` has one typed and one untyped
declaration. -/
def exClassC1 : ClassType :=
  .mk "C1" false false [.mk "attr" (.mk 0 none [exVar1, exUntyped])]

/-- Class `C2`, whose member `attr` has only an untyped declaration. -/
def exClassC2 : ClassType :=
  .mk "C2" false false [.mk "attr" (.mk 0 none [exUntyped])]

/-- A name node for `x.attr` where `x` has the union type `C1 | C2`. -/
def exNodeMember : NameNode :=
  { nameValue := "attr",
    parent := some (.memberAccess
      (some (.union [.classType exClassC1, .classType exClassC2])) true),
    scope := none }

/-- Claim C8 (witness): member access on the two-variant union `C1 | C2`
concatenates each variant's contribution in variant order. -/
theorem claim8_union_member_access_witness :
    getDeclarationsForNameNode exNodeMember exLookupPkg =
      some ([Ty.classType exClassC1, Ty.classType exClassC2].flatMap
        (fun subtype => declarationsForSubtype subtype exNodeMember.nameValue exLookupPkg)) :=
  (claim8_union_member_access exNodeMember exLookupPkg
    [.classType exClassC1, .classType exClassC2] rfl).1

/-- Claim C9: a name node that is the un-aliased source name of an
import-as clause (the `Y` of `from X import Y as Z`, when the alias is
present) gets the distinguished "not applicable" answer from
`getDeclarationsForNameNode` — `none`, observably distinct from a present
but empty declaration list. -/
theorem claim9_import_as_not_applicable (node : NameNode) (il : ImportLookup)
    (a : String) (hparent : node.parent = some (.importFromAs (some a) true)) :
    getDeclarationsForNameNode node il = none ∧
    getDeclarationsForNameNode node il ≠ some [] := by
  have h : getDeclarationsForNameNode node il = none := by
    unfold getDeclarationsForNameNode
    rw [hparent]
    exact rfl
  refine ⟨h, ?_⟩
  rw [h]
  intro hc
  injection hc

/-- The `Y` name node of a `from X import Y as Z` clause. -/
def exNodeImportAs : NameNode :=
  { nameValue := "Y", parent := some (.importFromAs (some "Z") true), scope := none }

/-- Claim C9 (witness): concrete `from X import Y as Z` source-name node. -/
theorem claim9_import_as_not_applicable_witness :
    getDeclarationsForNameNode exNodeImportAs exLookupPkg = none ∧
    getDeclarationsForNameNode exNodeImportAs exLookupPkg ≠ some [] :=
  claim9_import_as_not_applicable exNodeImportAs exLookupPkg "Z" rfl

end Analyzer
